import Mathlib

/-!
Shallow embedding of the cosmolith diff-to-event engine and compositor
dispatch layer (repository sandptel/cosmolith), together with proofs of
the behavioural properties stated in its specification.

Rust `f64`/`f32` payloads are modelled by `ℚ`: in the embedded code such
values are only stored, compared for equality/order, and transmitted —
no floating-point arithmetic occurs.  Rust `String` is modelled by
`List Char`.
-/

namespace Cosmolith

/-- Model of Rust `f64` (values are only compared and transmitted). -/
abbrev F64 := ℚ

/-- Model of Rust `f32`. -/
abbrev F32 := ℚ

/-- Model of Rust `String`. -/
abbrev RStr := List Char

/-- `cosmic_comp_config::input::DeviceState`. -/
inductive DeviceState
  | enabled
  | disabled
  | disabledOnExternalMouse
deriving DecidableEq

/-- `cosmic_comp_config::input::AccelProfile`. -/
inductive AccelProfile
  | flat
  | adaptive
deriving DecidableEq

/-- `cosmic_comp_config::input::AccelConfig`. -/
structure AccelConfig where
  profile : Option AccelProfile
  speed : F64
deriving DecidableEq

/-- `cosmic_comp_config::input::ClickMethod`. -/
inductive ClickMethod
  | buttonAreas
  | clickfinger
deriving DecidableEq

/-- `cosmic_comp_config::input::ScrollMethod`. -/
inductive ScrollMethod
  | noScroll
  | twoFinger
  | edge
  | onButtonDown
deriving DecidableEq

/-- `cosmic_comp_config::input::TapButtonMap`. -/
inductive TapButtonMap
  | leftRightMiddle
  | leftMiddleRight
deriving DecidableEq

/-- `cosmic_comp_config::input::ScrollConfig`. -/
structure ScrollConfig where
  method : Option ScrollMethod
  natural_scroll : Option Bool
  scroll_button : Option Nat
  scroll_factor : Option F64
deriving DecidableEq

/-- `cosmic_comp_config::input::TapConfig`. -/
structure TapConfig where
  enabled : Bool
  button_map : Option TapButtonMap
  drag : Bool
  drag_lock : Bool
deriving DecidableEq

/-- `cosmic_comp_config::input::InputConfig`: one configuration snapshot of
the touchpad or mouse domain.  Derived `PartialEq` is structural. -/
structure InputConfig where
  state : DeviceState
  acceleration : Option AccelConfig
  calibration : Option (List F32)
  click_method : Option ClickMethod
  disable_while_typing : Option Bool
  left_handed : Option Bool
  middle_button_emulation : Option Bool
  rotation_angle : Option Nat
  scroll_config : Option ScrollConfig
  tap_config : Option TapConfig
  map_to_output : Option RStr
deriving DecidableEq

/-- `cosmic_comp_config::NumlockState`. -/
inductive NumlockState
  | bootOn
  | bootOff
  | lastBoot
deriving DecidableEq

/-- `cosmic_comp_config::XkbConfig` (fields diffed by `XkbConfigDiff::from`). -/
structure XkbConfig where
  rules : RStr
  model : RStr
  layout : RStr
  variant : RStr
  options : Option RStr
  repeat_delay : Nat
  repeat_rate : Nat
deriving DecidableEq

/-- `cosmic_comp_config::KeyboardConfig` (field diffed by `KeyboardConfigDiff::from`). -/
structure KeyboardConfig where
  numlock_state : NumlockState
deriving DecidableEq

/-- `src/event/input.rs` enum `KeyboardEvent`. -/
inductive KeyboardEvent
  | rules (v : RStr)
  | model (v : RStr)
  | layout (v : RStr)
  | variant (v : RStr)
  | options (v : Option RStr)
  | repeatDelay (v : Nat)
  | repeatRate (v : Nat)
  | numLock (v : NumlockState)
deriving DecidableEq

/-- `src/event/input.rs` enum `TouchpadEvent`. -/
inductive TouchpadEvent
  | state (v : DeviceState)
  | acceleration (v : Option AccelConfig)
  | calibration (v : Option (List F32))
  | clickMethod (v : Option ClickMethod)
  | disableWhileTyping (v : Option Bool)
  | leftHanded (v : Option Bool)
  | middleButtonEmulation (v : Option Bool)
  | rotationAngle (v : Option Nat)
  | scrollConfig (v : Option ScrollConfig)
  | tapConfig (v : Option TapConfig)
  | mapToOutput (v : Option RStr)
  | scrollMethod (v : Option ScrollMethod)
  | naturalScroll (v : Option Bool)
  | scrollFactor (v : Option F64)
  | scrollButton (v : Option Nat)
  | tapEnabled (v : Bool)
  | tapButtonMap (v : Option TapButtonMap)
  | tapDrag (v : Bool)
  | tapDragLock (v : Bool)
deriving DecidableEq

/-- `src/event/input.rs` enum `MouseEvent`. -/
inductive MouseEvent
  | state (v : DeviceState)
  | acceleration (v : Option AccelConfig)
  | calibration (v : Option (List F32))
  | clickMethod (v : Option ClickMethod)
  | disableWhileTyping (v : Option Bool)
  | leftHanded (v : Option Bool)
  | middleButtonEmulation (v : Option Bool)
  | rotationAngle (v : Option Nat)
  | scrollConfig (v : Option ScrollConfig)
  | tapConfig (v : Option TapConfig)
  | mapToOutput (v : Option RStr)
  | scrollMethod (v : Option ScrollMethod)
  | naturalScroll (v : Option Bool)
  | scrollFactor (v : Option F64)
  | scrollButton (v : Option Nat)
deriving DecidableEq

/-- `src/event/input.rs` enum `InputEvent`. -/
inductive InputEvent
  | touchPad (e : TouchpadEvent)
  | mouse (e : MouseEvent)
  | keyboard (e : KeyboardEvent)
deriving DecidableEq

/-- The `Event` enum consumed by the dispatcher (`src/event.rs`, `Event::Input`). -/
inductive Event
  | input (e : InputEvent)
deriving DecidableEq

/-! ### The diff engine (`InputConfigDiff::from_touchpad`, `from_mouse`,
`XkbConfigDiff::from`, `KeyboardConfigDiff::from` in `src/event/input.rs`).

The Rust functions push events onto a `Vec` in a fixed straight-line order;
we transcribe them as the concatenation, in that same order, of one guarded
chunk per field. -/

/-- Touchpad events for the scalar fields emitted before the scroll/tap
composites (`from_touchpad`, field checks `state` through `rotation_angle`). -/
def touchpadScalarEvents (old new : InputConfig) : List Event :=
  (if old.state ≠ new.state then
    [Event.input (.touchPad (.state new.state))] else []) ++
  (if old.acceleration ≠ new.acceleration then
    [Event.input (.touchPad (.acceleration new.acceleration))] else []) ++
  (if old.calibration ≠ new.calibration then
    [Event.input (.touchPad (.calibration new.calibration))] else []) ++
  (if old.click_method ≠ new.click_method then
    [Event.input (.touchPad (.clickMethod new.click_method))] else []) ++
  (if old.disable_while_typing ≠ new.disable_while_typing then
    [Event.input (.touchPad (.disableWhileTyping new.disable_while_typing))] else []) ++
  (if old.left_handed ≠ new.left_handed then
    [Event.input (.touchPad (.leftHanded new.left_handed))] else []) ++
  (if old.middle_button_emulation ≠ new.middle_button_emulation then
    [Event.input (.touchPad (.middleButtonEmulation new.middle_button_emulation))] else []) ++
  (if old.rotation_angle ≠ new.rotation_angle then
    [Event.input (.touchPad (.rotationAngle new.rotation_angle))] else [])

/-- The fine-grained scroll events emitted inside the `from_touchpad`
scroll section when both composites are `Some`. -/
def scrollSubEvents (o n : ScrollConfig) : List Event :=
  (if o.method ≠ n.method then
    [Event.input (.touchPad (.scrollMethod n.method))] else []) ++
  (if o.natural_scroll ≠ n.natural_scroll then
    [Event.input (.touchPad (.naturalScroll n.natural_scroll))] else []) ++
  (if o.scroll_button ≠ n.scroll_button then
    [Event.input (.touchPad (.scrollButton n.scroll_button))] else []) ++
  (if o.scroll_factor ≠ n.scroll_factor then
    [Event.input (.touchPad (.scrollFactor n.scroll_factor))] else [])

/-- The fine-grained tap events emitted inside the `from_touchpad`
tap section when both composites are `Some`. -/
def tapSubEvents (o n : TapConfig) : List Event :=
  (if o.enabled ≠ n.enabled then
    [Event.input (.touchPad (.tapEnabled n.enabled))] else []) ++
  (if o.button_map ≠ n.button_map then
    [Event.input (.touchPad (.tapButtonMap n.button_map))] else []) ++
  (if o.drag ≠ n.drag then
    [Event.input (.touchPad (.tapDrag n.drag))] else []) ++
  (if o.drag_lock ≠ n.drag_lock then
    [Event.input (.touchPad (.tapDragLock n.drag_lock))] else [])

/-- The scroll-composite section of `from_touchpad`: the coarse
`ScrollConfig` event followed, when both sides are `Some`, by one event per
differing inner field. -/
def touchpadScrollEvents (old new : InputConfig) : List Event :=
  if old.scroll_config ≠ new.scroll_config then
    Event.input (.touchPad (.scrollConfig new.scroll_config)) ::
      (match old.scroll_config, new.scroll_config with
       | some o, some n => scrollSubEvents o n
       | _, _ => [])
  else []

/-- The tap-composite section of `from_touchpad`: the coarse `TapConfig`
event followed, when both sides are `Some`, by one event per differing
inner field. -/
def touchpadTapEvents (old new : InputConfig) : List Event :=
  if old.tap_config ≠ new.tap_config then
    Event.input (.touchPad (.tapConfig new.tap_config)) ::
      (match old.tap_config, new.tap_config with
       | some o, some n => tapSubEvents o n
       | _, _ => [])
  else []

/-- The trailing `map_to_output` check of `from_touchpad`. -/
def touchpadMapOutputEvents (old new : InputConfig) : List Event :=
  if old.map_to_output ≠ new.map_to_output then
    [Event.input (.touchPad (.mapToOutput new.map_to_output))] else []

/-- `InputConfigDiff::from_touchpad` (`src/event/input.rs`): early return on
structural equality, then the field checks in declared order. -/
def from_touchpad (old new : InputConfig) : List Event :=
  if old = new then []
  else
    touchpadScalarEvents old new ++ touchpadScrollEvents old new ++
      touchpadTapEvents old new ++ touchpadMapOutputEvents old new

/-- Mouse events for the scalar fields of `from_mouse`. -/
def mouseScalarEvents (old new : InputConfig) : List Event :=
  (if old.state ≠ new.state then
    [Event.input (.mouse (.state new.state))] else []) ++
  (if old.acceleration ≠ new.acceleration then
    [Event.input (.mouse (.acceleration new.acceleration))] else []) ++
  (if old.calibration ≠ new.calibration then
    [Event.input (.mouse (.calibration new.calibration))] else []) ++
  (if old.click_method ≠ new.click_method then
    [Event.input (.mouse (.clickMethod new.click_method))] else []) ++
  (if old.disable_while_typing ≠ new.disable_while_typing then
    [Event.input (.mouse (.disableWhileTyping new.disable_while_typing))] else []) ++
  (if old.left_handed ≠ new.left_handed then
    [Event.input (.mouse (.leftHanded new.left_handed))] else []) ++
  (if old.middle_button_emulation ≠ new.middle_button_emulation then
    [Event.input (.mouse (.middleButtonEmulation new.middle_button_emulation))] else []) ++
  (if old.rotation_angle ≠ new.rotation_angle then
    [Event.input (.mouse (.rotationAngle new.rotation_angle))] else [])

/-- The scroll-composite section of `from_mouse`. -/
def mouseScrollEvents (old new : InputConfig) : List Event :=
  if old.scroll_config ≠ new.scroll_config then
    Event.input (.mouse (.scrollConfig new.scroll_config)) ::
      (match old.scroll_config, new.scroll_config with
       | some o, some n =>
         (if o.method ≠ n.method then
           [Event.input (.mouse (.scrollMethod n.method))] else []) ++
         (if o.natural_scroll ≠ n.natural_scroll then
           [Event.input (.mouse (.naturalScroll n.natural_scroll))] else []) ++
         (if o.scroll_button ≠ n.scroll_button then
           [Event.input (.mouse (.scrollButton n.scroll_button))] else []) ++
         (if o.scroll_factor ≠ n.scroll_factor then
           [Event.input (.mouse (.scrollFactor n.scroll_factor))] else [])
       | _, _ => [])
  else []

/-- The tap section of `from_mouse`: coarse event only, no sub-field events. -/
def mouseTapEvents (old new : InputConfig) : List Event :=
  if old.tap_config ≠ new.tap_config then
    [Event.input (.mouse (.tapConfig new.tap_config))] else []

/-- The trailing `map_to_output` check of `from_mouse`. -/
def mouseMapOutputEvents (old new : InputConfig) : List Event :=
  if old.map_to_output ≠ new.map_to_output then
    [Event.input (.mouse (.mapToOutput new.map_to_output))] else []

/-- `InputConfigDiff::from_mouse` (`src/event/input.rs`). -/
def from_mouse (old new : InputConfig) : List Event :=
  if old = new then []
  else
    mouseScalarEvents old new ++ mouseScrollEvents old new ++
      mouseTapEvents old new ++ mouseMapOutputEvents old new

/-- `XkbConfigDiff::from` (`src/event/input.rs`). -/
def xkbConfigDiff (old new : XkbConfig) : List Event :=
  if old = new then []
  else
    (if old.rules ≠ new.rules then
      [Event.input (.keyboard (.rules new.rules))] else []) ++
    (if old.model ≠ new.model then
      [Event.input (.keyboard (.model new.model))] else []) ++
    (if old.layout ≠ new.layout then
      [Event.input (.keyboard (.layout new.layout))] else []) ++
    (if old.variant ≠ new.variant then
      [Event.input (.keyboard (.variant new.variant))] else []) ++
    (if old.options ≠ new.options then
      [Event.input (.keyboard (.options new.options))] else []) ++
    (if old.repeat_delay ≠ new.repeat_delay then
      [Event.input (.keyboard (.repeatDelay new.repeat_delay))] else []) ++
    (if old.repeat_rate ≠ new.repeat_rate then
      [Event.input (.keyboard (.repeatRate new.repeat_rate))] else [])

/-- `KeyboardConfigDiff::from` (`src/event/input.rs`). -/
def keyboardConfigDiff (old new : KeyboardConfig) : List Event :=
  if old = new then []
  else
    if old.numlock_state ≠ new.numlock_state then
      [Event.input (.keyboard (.numLock new.numlock_state))] else []

/-- C1: diffing any snapshot against itself yields the empty event
sequence, for the touchpad diff, the mouse diff, the `XkbConfig` diff and
the `KeyboardConfig` diff alike. -/
theorem c1_diff_self_empty (x : InputConfig) (k : XkbConfig) (b : KeyboardConfig) :
    from_touchpad x x = [] ∧ from_mouse x x = [] ∧
      xkbConfigDiff k k = [] ∧ keyboardConfigDiff b b = [] := by
  refine ⟨?_, ?_, ?_, ?_⟩ <;> simp [from_touchpad, from_mouse, xkbConfigDiff, keyboardConfigDiff]

/-! ### Coarse-before-fine ordering of composite events -/

/-- Recognizer for the fine-grained tap events. -/
def isTapSubEvent : Event → Bool
  | .input (.touchPad (.tapEnabled _)) => true
  | .input (.touchPad (.tapButtonMap _)) => true
  | .input (.touchPad (.tapDrag _)) => true
  | .input (.touchPad (.tapDragLock _)) => true
  | _ => false

/-- Recognizer for the fine-grained scroll events. -/
def isScrollSubEvent : Event → Bool
  | .input (.touchPad (.scrollMethod _)) => true
  | .input (.touchPad (.naturalScroll _)) => true
  | .input (.touchPad (.scrollFactor _)) => true
  | .input (.touchPad (.scrollButton _)) => true
  | _ => false

lemma mem_guard {c : Prop} [Decidable c] {x e : Event}
    (he : e ∈ if c then [x] else []) : e = x := by
  split at he
  · simpa using he
  · simp at he

lemma touchpadScalarEvents_not_sub (old new : InputConfig) :
    ∀ e ∈ touchpadScalarEvents old new,
      isTapSubEvent e = false ∧ isScrollSubEvent e = false := by
  intro e he
  unfold touchpadScalarEvents at he
  repeat rcases List.mem_append.mp he with he | he
  all_goals (obtain rfl := mem_guard he; exact ⟨rfl, rfl⟩)

lemma scrollSubEvents_not_tapSub (o n : ScrollConfig) :
    ∀ e ∈ scrollSubEvents o n, isTapSubEvent e = false := by
  intro e he
  unfold scrollSubEvents at he
  repeat rcases List.mem_append.mp he with he | he
  all_goals (obtain rfl := mem_guard he; rfl)

lemma tapSubEvents_not_scrollSub (o n : TapConfig) :
    ∀ e ∈ tapSubEvents o n, isScrollSubEvent e = false := by
  intro e he
  unfold tapSubEvents at he
  repeat rcases List.mem_append.mp he with he | he
  all_goals (obtain rfl := mem_guard he; rfl)

lemma scrollMatch_not_tapSub (a b : Option ScrollConfig) :
    ∀ e ∈ (match a, b with
            | some o, some n => scrollSubEvents o n
            | _, _ => ([] : List Event)), isTapSubEvent e = false := by
  cases a <;> cases b <;> intro e he
  · simp at he
  · simp at he
  · simp at he
  · exact scrollSubEvents_not_tapSub _ _ e he

lemma tapMatch_not_scrollSub (a b : Option TapConfig) :
    ∀ e ∈ (match a, b with
            | some o, some n => tapSubEvents o n
            | _, _ => ([] : List Event)), isScrollSubEvent e = false := by
  cases a <;> cases b <;> intro e he
  · simp at he
  · simp at he
  · simp at he
  · exact tapSubEvents_not_scrollSub _ _ e he

lemma touchpadScrollEvents_not_tapSub (old new : InputConfig) :
    ∀ e ∈ touchpadScrollEvents old new, isTapSubEvent e = false := by
  intro e he
  unfold touchpadScrollEvents at he
  split at he
  · rcases List.mem_cons.mp he with rfl | he
    · rfl
    · exact scrollMatch_not_tapSub old.scroll_config new.scroll_config e he
  · simp at he

lemma touchpadTapEvents_not_scrollSub (old new : InputConfig) :
    ∀ e ∈ touchpadTapEvents old new, isScrollSubEvent e = false := by
  intro e he
  unfold touchpadTapEvents at he
  split at he
  · rcases List.mem_cons.mp he with rfl | he
    · rfl
    · exact tapMatch_not_scrollSub old.tap_config new.tap_config e he
  · simp at he

lemma touchpadMapOutputEvents_not_sub (old new : InputConfig) :
    ∀ e ∈ touchpadMapOutputEvents old new,
      isTapSubEvent e = false ∧ isScrollSubEvent e = false := by
  intro e he
  unfold touchpadMapOutputEvents at he
  obtain rfl := mem_guard he
  exact ⟨rfl, rfl⟩

/-- The `enabled:true → enabled:false` tap configurations of the spec's
touchpad tap-toggle scenario. -/
def tapScenarioOld : TapConfig := ⟨true, none, false, false⟩

def tapScenarioNew : TapConfig := ⟨false, none, false, false⟩

/-- Old snapshot of the tap-toggle scenario (every non-tap field at a fixed
common value). -/
def cfgScenarioOld : InputConfig :=
  ⟨.enabled, none, none, none, none, none, none, none, none, some tapScenarioOld, none⟩

/-- New snapshot of the tap-toggle scenario: only `tap_config.enabled`
differs from `cfgScenarioOld`. -/
def cfgScenarioNew : InputConfig :=
  ⟨.enabled, none, none, none, none, none, none, none, none, some tapScenarioNew, none⟩

/-- C2: whenever a composite field (tap config or scroll config) differs,
`from_touchpad` places the coarse composite event strictly before every
fine-grained event of that composite; and on the spec's tap-toggle scenario
the output is exactly `[TapConfig (some new), TapEnabled false]`. -/
theorem c2_coarse_before_subfields :
    (∀ old new : InputConfig, old.tap_config ≠ new.tap_config →
      ∃ i : ℕ, (from_touchpad old new)[i]? =
          some (Event.input (.touchPad (.tapConfig new.tap_config))) ∧
        ∀ (j : ℕ) (e : Event), (from_touchpad old new)[j]? = some e → isTapSubEvent e = true → i < j) ∧
    (∀ old new : InputConfig, old.scroll_config ≠ new.scroll_config →
      ∃ i : ℕ, (from_touchpad old new)[i]? =
          some (Event.input (.touchPad (.scrollConfig new.scroll_config))) ∧
        ∀ (j : ℕ) (e : Event), (from_touchpad old new)[j]? = some e → isScrollSubEvent e = true → i < j) ∧
    from_touchpad cfgScenarioOld cfgScenarioNew =
      [Event.input (.touchPad (.tapConfig (some tapScenarioNew))),
       Event.input (.touchPad (.tapEnabled false))] := by
  refine ⟨?_, ?_, by decide⟩
  · intro old new htap
    have hne : old ≠ new := fun h => htap (by rw [h])
    have hl : from_touchpad old new =
        (touchpadScalarEvents old new ++ touchpadScrollEvents old new) ++
          (Event.input (.touchPad (.tapConfig new.tap_config)) ::
            ((match old.tap_config, new.tap_config with
              | some o, some n => tapSubEvents o n
              | _, _ => []) ++ touchpadMapOutputEvents old new)) := by
      rw [from_touchpad, if_neg hne, touchpadTapEvents, if_pos htap]
      simp [List.append_assoc]
    refine ⟨(touchpadScalarEvents old new ++ touchpadScrollEvents old new).length, ?_, ?_⟩
    · rw [hl, List.getElem?_append_right le_rfl]
      simp
    · intro j e hj hsub
      rcases lt_trichotomy j
          (touchpadScalarEvents old new ++ touchpadScrollEvents old new).length with
        hlt | rfl | hgt
      · exfalso
        rw [hl, List.getElem?_append, if_pos hlt] at hj
        have hmem := List.getElem?_mem hj
        rcases List.mem_append.mp hmem with hm | hm
        · exact absurd hsub (by simp [(touchpadScalarEvents_not_sub old new e hm).1])
        · exact absurd hsub (by simp [touchpadScrollEvents_not_tapSub old new e hm])
      · exfalso
        rw [hl, List.getElem?_append_right le_rfl] at hj
        simp only [Nat.sub_self, List.getElem?_cons_zero, Option.some.injEq] at hj
        subst hj
        simp [isTapSubEvent] at hsub
      · exact hgt
  · intro old new hscroll
    have hne : old ≠ new := fun h => hscroll (by rw [h])
    have hl : from_touchpad old new =
        touchpadScalarEvents old new ++
          (Event.input (.touchPad (.scrollConfig new.scroll_config)) ::
            ((match old.scroll_config, new.scroll_config with
              | some o, some n => scrollSubEvents o n
              | _, _ => []) ++
              (touchpadTapEvents old new ++ touchpadMapOutputEvents old new))) := by
      rw [from_touchpad, if_neg hne, touchpadScrollEvents, if_pos hscroll]
      simp [List.append_assoc]
    refine ⟨(touchpadScalarEvents old new).length, ?_, ?_⟩
    · rw [hl, List.getElem?_append_right le_rfl]
      simp
    · intro j e hj hsub
      rcases lt_trichotomy j (touchpadScalarEvents old new).length with hlt | rfl | hgt
      · exfalso
        rw [hl, List.getElem?_append, if_pos hlt] at hj
        have hmem := List.getElem?_mem hj
        exact absurd hsub (by simp [(touchpadScalarEvents_not_sub old new e hmem).2])
      · exfalso
        rw [hl, List.getElem?_append_right le_rfl] at hj
        simp only [Nat.sub_self, List.getElem?_cons_zero, Option.some.injEq] at hj
        subst hj
        simp [isScrollSubEvent] at hsub
      · exact hgt

/-- C2 witness: the coarse-before-fine law instantiated on the concrete
tap-toggle scenario. -/
theorem c2_coarse_before_subfields_witness :
    cfgScenarioOld.tap_config ≠ cfgScenarioNew.tap_config ∧
      ∃ i : ℕ, (from_touchpad cfgScenarioOld cfgScenarioNew)[i]? =
          some (Event.input (.touchPad (.tapConfig cfgScenarioNew.tap_config))) ∧
        ∀ (j : ℕ) (e : Event), (from_touchpad cfgScenarioOld cfgScenarioNew)[j]? = some e →
          isTapSubEvent e = true → i < j :=
  ⟨by decide, c2_coarse_before_subfields.1 cfgScenarioOld cfgScenarioNew (by decide)⟩

/-! ### Fine-grained events require both composites present -/

lemma scrollSubEvents_isScrollSub (o n : ScrollConfig) :
    ∀ e ∈ scrollSubEvents o n, isScrollSubEvent e = true := by
  intro e he
  unfold scrollSubEvents at he
  repeat rcases List.mem_append.mp he with he | he
  all_goals (obtain rfl := mem_guard he; rfl)

lemma tapSubEvents_isTapSub (o n : TapConfig) :
    ∀ e ∈ tapSubEvents o n, isTapSubEvent e = true := by
  intro e he
  unfold tapSubEvents at he
  repeat rcases List.mem_append.mp he with he | he
  all_goals (obtain rfl := mem_guard he; rfl)

lemma mem_touchpadScrollEvents_shape (old new : InputConfig) :
    ∀ e ∈ touchpadScrollEvents old new,
      e = Event.input (.touchPad (.scrollConfig new.scroll_config)) ∨
        isScrollSubEvent e = true := by
  intro e he
  unfold touchpadScrollEvents at he
  split at he
  · rcases List.mem_cons.mp he with rfl | he
    · exact Or.inl rfl
    · refine Or.inr ?_
      rcases ha : old.scroll_config with _ | o <;> rcases hb : new.scroll_config with _ | n <;>
          rw [ha, hb] at he
      · simp at he
      · simp at he
      · simp at he
      · exact scrollSubEvents_isScrollSub o n e he
  · simp at he

lemma mem_touchpadTapEvents_shape (old new : InputConfig) :
    ∀ e ∈ touchpadTapEvents old new,
      e = Event.input (.touchPad (.tapConfig new.tap_config)) ∨
        isTapSubEvent e = true := by
  intro e he
  unfold touchpadTapEvents at he
  split at he
  · rcases List.mem_cons.mp he with rfl | he
    · exact Or.inl rfl
    · refine Or.inr ?_
      rcases ha : old.tap_config with _ | o <;> rcases hb : new.tap_config with _ | n <;>
          rw [ha, hb] at he
      · simp at he
      · simp at he
      · simp at he
      · exact tapSubEvents_isTapSub o n e he
  · simp at he

/-- C10: when a composite differs but one of its two sides is `None`,
`from_touchpad` emits the coarse composite event and no fine-grained event
of that composite at all. -/
theorem c10_subfields_require_both_some :
    (∀ old new : InputConfig, old.tap_config ≠ new.tap_config →
      old.tap_config = none ∨ new.tap_config = none →
      Event.input (.touchPad (.tapConfig new.tap_config)) ∈ from_touchpad old new ∧
        ∀ e ∈ from_touchpad old new, isTapSubEvent e = false) ∧
    (∀ old new : InputConfig, old.scroll_config ≠ new.scroll_config →
      old.scroll_config = none ∨ new.scroll_config = none →
      Event.input (.touchPad (.scrollConfig new.scroll_config)) ∈ from_touchpad old new ∧
        ∀ e ∈ from_touchpad old new, isScrollSubEvent e = false) := by
  constructor
  · intro old new htap hnone
    have hne : old ≠ new := fun h => htap (by rw [h])
    have hmatch : (match old.tap_config, new.tap_config with
        | some o, some n => tapSubEvents o n
        | _, _ => ([] : List Event)) = [] := by
      rcases hnone with h | h
      · rw [h]
      · rw [h]
        cases old.tap_config <;> rfl
    have hT : touchpadTapEvents old new =
        [Event.input (.touchPad (.tapConfig new.tap_config))] := by
      rw [touchpadTapEvents, if_pos htap, hmatch]
    constructor
    · rw [from_touchpad, if_neg hne]
      refine List.mem_append.mpr (Or.inl (List.mem_append.mpr (Or.inr ?_)))
      rw [hT]
      exact List.mem_singleton.mpr rfl
    · intro e he
      rw [from_touchpad, if_neg hne] at he
      rcases List.mem_append.mp he with he | he
      rotate_left
      · exact (touchpadMapOutputEvents_not_sub old new e he).1
      rcases List.mem_append.mp he with he | he
      rotate_left
      · rw [hT] at he
        obtain rfl := List.mem_singleton.mp he
        rfl
      rcases List.mem_append.mp he with he | he
      · exact (touchpadScalarEvents_not_sub old new e he).1
      · exact touchpadScrollEvents_not_tapSub old new e he
  · intro old new hscroll hnone
    have hne : old ≠ new := fun h => hscroll (by rw [h])
    have hmatch : (match old.scroll_config, new.scroll_config with
        | some o, some n => scrollSubEvents o n
        | _, _ => ([] : List Event)) = [] := by
      rcases hnone with h | h
      · rw [h]
      · rw [h]
        cases old.scroll_config <;> rfl
    have hSC : touchpadScrollEvents old new =
        [Event.input (.touchPad (.scrollConfig new.scroll_config))] := by
      rw [touchpadScrollEvents, if_pos hscroll, hmatch]
    constructor
    · rw [from_touchpad, if_neg hne]
      refine List.mem_append.mpr (Or.inl (List.mem_append.mpr (Or.inl
        (List.mem_append.mpr (Or.inr ?_)))))
      rw [hSC]
      exact List.mem_singleton.mpr rfl
    · intro e he
      rw [from_touchpad, if_neg hne] at he
      rcases List.mem_append.mp he with he | he
      rotate_left
      · exact (touchpadMapOutputEvents_not_sub old new e he).2
      rcases List.mem_append.mp he with he | he
      rotate_left
      · exact touchpadTapEvents_not_scrollSub old new e he
      rcases List.mem_append.mp he with he | he
      · exact (touchpadScalarEvents_not_sub old new e he).2
      · rw [hSC] at he
        obtain rfl := List.mem_singleton.mp he
        rfl

/-- A snapshot with every optional field absent. -/
def cfgBase : InputConfig :=
  ⟨.enabled, none, none, none, none, none, none, none, none, none, none⟩

/-- C10 witness: removing the whole tap config (`Some → None`) yields the
coarse event and no fine-grained tap event. -/
theorem c10_subfields_require_both_some_witness :
    cfgScenarioOld.tap_config ≠ cfgBase.tap_config ∧
      (Event.input (.touchPad (.tapConfig cfgBase.tap_config)) ∈
          from_touchpad cfgScenarioOld cfgBase ∧
        ∀ e ∈ from_touchpad cfgScenarioOld cfgBase, isTapSubEvent e = false) :=
  ⟨by decide,
    c10_subfields_require_both_some.1 cfgScenarioOld cfgBase (by decide) (Or.inr (by decide))⟩

/-! ### Optional fields that become `None` -/

lemma dwt_mem_scalar_iff (old new : InputConfig) (v : Option Bool) :
    Event.input (.touchPad (.disableWhileTyping v)) ∈ touchpadScalarEvents old new ↔
      old.disable_while_typing ≠ new.disable_while_typing ∧
        v = new.disable_while_typing := by
  simp [touchpadScalarEvents, List.mem_append, List.mem_ite_nil_right]

lemma rot_mem_scalar_iff (old new : InputConfig) (v : Option Nat) :
    Event.input (.touchPad (.rotationAngle v)) ∈ touchpadScalarEvents old new ↔
      old.rotation_angle ≠ new.rotation_angle ∧ v = new.rotation_angle := by
  simp [touchpadScalarEvents, List.mem_append, List.mem_ite_nil_right]

lemma dwt_mem_from_touchpad_iff (old new : InputConfig) (v : Option Bool) :
    Event.input (.touchPad (.disableWhileTyping v)) ∈ from_touchpad old new ↔
      old.disable_while_typing ≠ new.disable_while_typing ∧
        v = new.disable_while_typing := by
  constructor
  · intro h
    by_cases hne : old = new
    · rw [from_touchpad, if_pos hne] at h
      simp at h
    rw [from_touchpad, if_neg hne] at h
    rcases List.mem_append.mp h with h | h
    rotate_left
    · obtain h := mem_guard h
      simp at h
    rcases List.mem_append.mp h with h | h
    rotate_left
    · rcases mem_touchpadTapEvents_shape old new _ h with h | h
      · simp at h
      · simp [isTapSubEvent] at h
    rcases List.mem_append.mp h with h | h
    · exact (dwt_mem_scalar_iff old new v).mp h
    · rcases mem_touchpadScrollEvents_shape old new _ h with h | h
      · simp at h
      · simp [isScrollSubEvent] at h
  · rintro ⟨hd, rfl⟩
    have hne : old ≠ new := fun h => hd (by rw [h])
    rw [from_touchpad, if_neg hne]
    refine List.mem_append.mpr (Or.inl (List.mem_append.mpr (Or.inl
      (List.mem_append.mpr (Or.inl ?_)))))
    exact (dwt_mem_scalar_iff old new _).mpr ⟨hd, rfl⟩

lemma rot_mem_from_touchpad_iff (old new : InputConfig) (v : Option Nat) :
    Event.input (.touchPad (.rotationAngle v)) ∈ from_touchpad old new ↔
      old.rotation_angle ≠ new.rotation_angle ∧ v = new.rotation_angle := by
  constructor
  · intro h
    by_cases hne : old = new
    · rw [from_touchpad, if_pos hne] at h
      simp at h
    rw [from_touchpad, if_neg hne] at h
    rcases List.mem_append.mp h with h | h
    rotate_left
    · obtain h := mem_guard h
      simp at h
    rcases List.mem_append.mp h with h | h
    rotate_left
    · rcases mem_touchpadTapEvents_shape old new _ h with h | h
      · simp at h
      · simp [isTapSubEvent] at h
    rcases List.mem_append.mp h with h | h
    · exact (rot_mem_scalar_iff old new v).mp h
    · rcases mem_touchpadScrollEvents_shape old new _ h with h | h
      · simp at h
      · simp [isScrollSubEvent] at h
  · rintro ⟨hd, rfl⟩
    have hne : old ≠ new := fun h => hd (by rw [h])
    rw [from_touchpad, if_neg hne]
    refine List.mem_append.mpr (Or.inl (List.mem_append.mpr (Or.inl
      (List.mem_append.mpr (Or.inl ?_)))))
    exact (rot_mem_scalar_iff old new _).mpr ⟨hd, rfl⟩

/-- A snapshot differing from `cfgBase` only in holding
`disable_while_typing = some true`. -/
def cfgDwtSome : InputConfig :=
  ⟨.enabled, none, none, none, some true, none, none, none, none, none, none⟩

/-- C3 counterexample: with `old.disable_while_typing = some true` and
`new.disable_while_typing = none`, the diff does emit a
`DisableWhileTyping` event (carrying `None`), so a `None` field in the new
snapshot does not suppress the event when the old snapshot held `Some`. -/
theorem c3_counterexample :
    ¬ (∀ old new : InputConfig, new.disable_while_typing = none →
        ∀ e ∈ from_touchpad old new, ∀ v : Option Bool,
          e ≠ Event.input (.touchPad (.disableWhileTyping v))) := by
  intro h
  exact h cfgDwtSome cfgBase rfl
    (Event.input (.touchPad (.disableWhileTyping none))) (by decide) none rfl

/-- C3 amended: an optional field's event is emitted exactly when old and
new values differ, and it always carries the new value — in particular a
`Some → None` transition emits the event with payload `None` (which the
backend adapters treat as leave-unchanged); only an unchanged field (both
`None` or equal `Some`) emits nothing.  Proved for the representative
optional fields `disable_while_typing` and `rotation_angle`. -/
theorem c3_none_field_events (old new : InputConfig) (b : Option Bool) (r : Option Nat) :
    (Event.input (.touchPad (.disableWhileTyping b)) ∈ from_touchpad old new ↔
      old.disable_while_typing ≠ new.disable_while_typing ∧
        b = new.disable_while_typing) ∧
    (Event.input (.touchPad (.rotationAngle r)) ∈ from_touchpad old new ↔
      old.rotation_angle ≠ new.rotation_angle ∧ r = new.rotation_angle) :=
  ⟨dwt_mem_from_touchpad_iff old new b, rot_mem_from_touchpad_iff old new r⟩

/-! ### The `Input` capability trait (`src/compositor/input.rs`)

Each capability method takes exactly the payload of the matching event
variant.  `CapabilityCall` enumerates one call per method; the default
implementations are total functions (no panic path exists in the source
bodies), each printing one "not implemented" line and returning `Ok(())`. -/

/-- `Result<(), Box<dyn Error + Send + Sync>>` for capability methods. -/
abbrev InputResult := Except String Unit

/-- One invocation of a capability method of the `Input` trait, with its
payload. -/
inductive CapabilityCall
  | keyboard_rules (v : RStr)
  | keyboard_model (v : RStr)
  | keyboard_layout (v : RStr)
  | keyboard_variant (v : RStr)
  | keyboard_options (v : Option RStr)
  | keyboard_repeat_delay (v : Nat)
  | keyboard_repeat_rate (v : Nat)
  | numslock_state (v : NumlockState)
  | touchpad_state (v : DeviceState)
  | touchpad_acceleration (v : Option AccelConfig)
  | touchpad_calibration (v : Option (List F32))
  | touchpad_click_method (v : Option ClickMethod)
  | touchpad_disable_while_typing (v : Option Bool)
  | touchpad_left_handed (v : Option Bool)
  | touchpad_middle_button_emulation (v : Option Bool)
  | touchpad_rotation_angle (v : Option Nat)
  | touchpad_scroll_config (v : Option ScrollConfig)
  | touchpad_scroll_method (v : Option ScrollMethod)
  | touchpad_natural_scroll (v : Option Bool)
  | touchpad_scroll_factor (v : Option F64)
  | touchpad_scroll_button (v : Option Nat)
  | touchpad_tap_config (v : Option TapConfig)
  | touchpad_tap_enabled (v : Bool)
  | touchpad_tap_button_map (v : Option TapButtonMap)
  | touchpad_tap_drag (v : Bool)
  | touchpad_tap_drag_lock (v : Bool)
  | touchpad_map_to_output (v : Option RStr)
  | mouse_state (v : DeviceState)
  | mouse_acceleration (v : Option AccelConfig)
  | mouse_calibration (v : Option (List F32))
  | mouse_click_method (v : Option ClickMethod)
  | mouse_disable_while_typing (v : Option Bool)
  | mouse_left_handed (v : Option Bool)
  | mouse_middle_button_emulation (v : Option Bool)
  | mouse_rotation_angle (v : Option Nat)
  | mouse_scroll_config (v : Option ScrollConfig)
  | mouse_scroll_method (v : Option ScrollMethod)
  | mouse_natural_scroll (v : Option Bool)
  | mouse_scroll_factor (v : Option F64)
  | mouse_scroll_button (v : Option Nat)
  | mouse_tap_config (v : Option TapConfig)
  | mouse_map_to_output (v : Option RStr)

/-- The default implementation of every capability method: log one
"not implemented" line on stderr and return `Ok(())`.  Returns the log
lines paired with the result. -/
def defaultCapability : CapabilityCall → List String × InputResult
  | .keyboard_rules _ => (["keyboard_rules not implemented"], .ok ())
  | .keyboard_model _ => (["keyboard_model not implemented"], .ok ())
  | .keyboard_layout _ => (["keyboard_layout not implemented"], .ok ())
  | .keyboard_variant _ => (["keyboard_variant not implemented"], .ok ())
  | .keyboard_options _ => (["keyboard_options not implemented"], .ok ())
  | .keyboard_repeat_delay _ => (["keyboard_repeat_delay not implemented"], .ok ())
  | .keyboard_repeat_rate _ => (["keyboard_repeat_rate not implemented"], .ok ())
  | .numslock_state _ => (["numslock_state not implemented"], .ok ())
  | .touchpad_state _ => (["touchpad_state not implemented"], .ok ())
  | .touchpad_acceleration _ => (["touchpad_acceleration not implemented"], .ok ())
  | .touchpad_calibration _ => (["touchpad_calibration not implemented"], .ok ())
  | .touchpad_click_method _ => (["touchpad_click_method not implemented"], .ok ())
  | .touchpad_disable_while_typing _ =>
      (["touchpad_disable_while_typing not implemented"], .ok ())
  | .touchpad_left_handed _ => (["touchpad_left_handed not implemented"], .ok ())
  | .touchpad_middle_button_emulation _ =>
      (["touchpad_middle_button_emulation not implemented"], .ok ())
  | .touchpad_rotation_angle _ => (["touchpad_rotation_angle not implemented"], .ok ())
  | .touchpad_scroll_config _ => (["touchpad_scroll_config not implemented"], .ok ())
  | .touchpad_scroll_method _ => (["touchpad_scroll_method not implemented"], .ok ())
  | .touchpad_natural_scroll _ => (["touchpad_natural_scroll not implemented"], .ok ())
  | .touchpad_scroll_factor _ => (["touchpad_scroll_factor not implemented"], .ok ())
  | .touchpad_scroll_button _ => (["touchpad_scroll_button not implemented"], .ok ())
  | .touchpad_tap_config _ => (["touchpad_tap_config not implemented"], .ok ())
  | .touchpad_tap_enabled _ => (["touchpad_tap_enabled not implemented"], .ok ())
  | .touchpad_tap_button_map _ => (["touchpad_tap_button_map not implemented"], .ok ())
  | .touchpad_tap_drag _ => (["touchpad_tap_drag not implemented"], .ok ())
  | .touchpad_tap_drag_lock _ => (["touchpad_tap_drag_lock not implemented"], .ok ())
  | .touchpad_map_to_output _ => (["touchpad_map_to_output not implemented"], .ok ())
  | .mouse_state _ => (["mouse_state not implemented"], .ok ())
  | .mouse_acceleration _ => (["mouse_acceleration not implemented"], .ok ())
  | .mouse_calibration _ => (["mouse_calibration not implemented"], .ok ())
  | .mouse_click_method _ => (["mouse_click_method not implemented"], .ok ())
  | .mouse_disable_while_typing _ =>
      (["mouse_disable_while_typing not implemented"], .ok ())
  | .mouse_left_handed _ => (["mouse_left_handed not implemented"], .ok ())
  | .mouse_middle_button_emulation _ =>
      (["mouse_middle_button_emulation not implemented"], .ok ())
  | .mouse_rotation_angle _ => (["mouse_rotation_angle not implemented"], .ok ())
  | .mouse_scroll_config _ => (["mouse_scroll_config not implemented"], .ok ())
  | .mouse_scroll_method _ => (["mouse_scroll_method not implemented"], .ok ())
  | .mouse_natural_scroll _ => (["mouse_natural_scroll not implemented"], .ok ())
  | .mouse_scroll_factor _ => (["mouse_scroll_factor not implemented"], .ok ())
  | .mouse_scroll_button _ => (["mouse_scroll_button not implemented"], .ok ())
  | .mouse_tap_config _ => (["mouse_tap_config not implemented"], .ok ())
  | .mouse_map_to_output _ => (["mouse_map_to_output not implemented"], .ok ())

/-- C4: every default capability method, on every payload, returns success
(`Ok(())`) and only logs; being a total Lean function over all payloads it
has no panic path. -/
theorem c4_default_capability_ok (c : CapabilityCall) :
    (defaultCapability c).2 = Except.ok () ∧ (defaultCapability c).1 ≠ [] := by
  cases c <;> exact ⟨rfl, List.cons_ne_nil _ _⟩

/-! ### The dispatch loop (`src/main.rs`) -/

/-- A compositor backend as the dispatch loop sees it: its `supports`
predicate and its `apply_event` method (`Compositor` trait,
`src/compositor/mod.rs`). -/
structure CompositorModel where
  supports : Event → Bool
  applyEvent : Event → Except String Unit

/-- What the dispatch loop does with one received event: either it invokes
`apply_event` on the active backend (obtaining its result), or — with no
backend — it only logs the event. -/
inductive DispatchAction
  | applied (e : Event) (r : Except String Unit)
  | loggedOnly (e : Event)

/-- One iteration of the receive loop in `main` (`src/main.rs`): print the
event, and if a compositor is active call `apply_event` on it; errors are
logged and the loop continues. -/
def dispatchStep (comp : Option CompositorModel) (e : Event) : DispatchAction :=
  match comp with
  | some c => .applied e (c.applyEvent e)
  | none => .loggedOnly e

/-- The receive loop applied to a whole sequence of received events: each
event is processed in order, regardless of earlier results. -/
def runLoop (comp : Option CompositorModel) (events : List Event) : List DispatchAction :=
  events.map (dispatchStep comp)

/-- Whether the loop passed the event to `apply_event`. -/
def isAppliedAction : DispatchAction → Bool
  | .applied _ _ => true
  | .loggedOnly _ => false

/-- A backend declaring interest in no event at all. -/
def noSupportBackend : CompositorModel :=
  ⟨fun _ => false, fun _ => .ok ()⟩

/-- A concrete event. -/
def sampleEvent : Event := .input (.touchPad (.tapEnabled true))

/-- C5 counterexample: the dispatch loop never consults `supports` — a
backend whose `supports` returns `false` for every event still receives
the event through `apply_event`. -/
theorem c5_counterexample :
    ¬ (∀ (c : CompositorModel) (e : Event), c.supports e = false →
        isAppliedAction (dispatchStep (some c) e) = false) := by
  intro h
  have hx := h noSupportBackend sampleEvent rfl
  simp [dispatchStep, isAppliedAction] at hx

/-- C5 amended: the dispatch loop passes every received event directly to
the active compositor's `apply_event`, without calling `supports`
(`supports` is declared on the trait but unused by the loop); a failing
event is only logged and every subsequent event is still dispatched.  With
no active compositor every event is only logged. -/
theorem c5_dispatch_without_supports :
    (∀ (c : CompositorModel) (events : List Event),
      runLoop (some c) events =
        events.map (fun e => DispatchAction.applied e (c.applyEvent e))) ∧
    (∀ events : List Event, runLoop none events = events.map DispatchAction.loggedOnly) :=
  ⟨fun _ _ => rfl, fun _ => rfl⟩

/-! ### Compositor selection (`src/compositor/mod.rs`, `src/identifier.rs`) -/

/-- `identifier::Desktop`. -/
inductive Desktop
  | hyprland
  | sway
  | gnome
  | kde
  | plasma
  | niri
  | xfce
  | cosmic
  | wayland
  | x11
  | tty
  | unknown (s : String)
deriving DecidableEq

/-- Whether each supported adapter's `init` succeeds in the current
environment (Hyprland: instance signature set; Sway/KDE: connection
established). -/
structure InitEnv where
  hyprlandInitOk : Bool
  swayInitOk : Bool
  kdeInitOk : Bool
deriving DecidableEq

/-- The three backends `init_compositor` can construct. -/
inductive Backend
  | hyprland
  | sway
  | kde
deriving DecidableEq

/-- `compositor::init_compositor`: only Hyprland, Sway and Kde are matched;
each is returned only when its `init` succeeds; every other desktop falls
to the wildcard arm and yields `None`. -/
def init_compositor (d : Desktop) (env : InitEnv) : Option Backend :=
  match d with
  | .hyprland => if env.hyprlandInitOk then some .hyprland else none
  | .sway => if env.swayInitOk then some .sway else none
  | .kde => if env.kdeInitOk then some .kde else none
  | _ => none

/-- C9: for any desktop other than Hyprland/Sway/Kde, and for a supported
desktop whose adapter `init` fails, `init_compositor` yields `None`; and
the dispatch loop with no active backend applies no event — every received
event is only logged. -/
theorem c9_no_backend_discards_events :
    (∀ (env : InitEnv) (d : Desktop), d ≠ .hyprland → d ≠ .sway → d ≠ .kde →
      init_compositor d env = none) ∧
    (∀ env : InitEnv,
      (env.hyprlandInitOk = false → init_compositor .hyprland env = none) ∧
      (env.swayInitOk = false → init_compositor .sway env = none) ∧
      (env.kdeInitOk = false → init_compositor .kde env = none)) ∧
    (∀ events : List Event,
      runLoop none events = events.map DispatchAction.loggedOnly) := by
  refine ⟨?_, ?_, fun _ => rfl⟩
  · intro env d h1 h2 h3
    cases d <;> simp_all [init_compositor]
  · intro env
    refine ⟨?_, ?_, ?_⟩ <;> intro h <;> simp [init_compositor, h]

/-- C9 witness: the Niri desktop (present in `Desktop` but absent from
`init_compositor`) yields no backend even when every `init` would succeed. -/
theorem c9_no_backend_discards_events_witness :
    Desktop.niri ≠ Desktop.hyprland ∧ Desktop.niri ≠ Desktop.sway ∧
      Desktop.niri ≠ Desktop.kde ∧
      init_compositor .niri ⟨true, true, true⟩ = none :=
  ⟨by decide, by decide, by decide,
    c9_no_backend_discards_events.1 ⟨true, true, true⟩ .niri
      (by decide) (by decide) (by decide)⟩

/-! ### Connection handling of the command adapters
(`Sway::run_command` in `src/compositor/sway.rs`,
`Niri::send_action` in `src/compositor/niri.rs`)

The transport is modelled by oracles giving the outcome of each possible
protocol step (initial lazy connect, first send, reconnect, retried send);
the adapters' control flow over those outcomes is transcribed from the
source.  Inner per-command error results of a successful Sway send are
only logged by the source and the call returns `Ok`, so a successful send
is modelled as `ok`. -/

/-- Outcome of one adapter-level command: the returned result together
with how many protocol sends and how many reconnect attempts happened. -/
structure CmdTrace where
  result : Except String Unit
  sends : Nat
  reconnects : Nat

/-- `Sway::run_command` once a connection exists: send; on transport error
reconnect once (propagating a failed reconnect) and retry the same command
exactly once, propagating the retry's outcome. -/
def swaySendPhase (sendFirst reconnect sendRetry : Except String Unit) : CmdTrace :=
  match sendFirst with
  | .ok _ => ⟨.ok (), 1, 0⟩
  | .error _ =>
    match reconnect with
    | .error e => ⟨.error e, 1, 1⟩
    | .ok _ =>
      match sendRetry with
      | .ok _ => ⟨.ok (), 2, 1⟩
      | .error e => ⟨.error e, 2, 1⟩

/-- `Sway::run_command`: lazily connect when no connection is held
(propagating a failed connect), then the send phase. -/
def sway_run_command (connected : Bool)
    (connectInit sendFirst reconnect sendRetry : Except String Unit) : CmdTrace :=
  if connected then swaySendPhase sendFirst reconnect sendRetry
  else
    match connectInit with
    | .error e => ⟨.error e, 0, 0⟩
    | .ok _ => swaySendPhase sendFirst reconnect sendRetry

/-- `Niri::send_action` once a connection exists: send once; a transport
error propagates immediately (`?`), and an error reply is converted to an
error.  There is no reconnect and no retry. -/
def niriSendPhase (send1 : Except String (Except String Unit)) : CmdTrace :=
  match send1 with
  | .error e => ⟨.error e, 1, 0⟩
  | .ok (.ok _) => ⟨.ok (), 1, 0⟩
  | .ok (.error m) => ⟨.error m, 1, 0⟩

/-- `Niri::send_action`: lazily connect when no socket is held
(propagating a failed connect), then a single send. -/
def niri_send_action (connected : Bool) (connectInit : Except String Unit)
    (send1 : Except String (Except String Unit)) : CmdTrace :=
  if connected then niriSendPhase send1
  else
    match connectInit with
    | .error e => ⟨.error e, 0, 0⟩
    | .ok _ => niriSendPhase send1

/-- C6 counterexample: the Niri adapter does not reconnect-and-retry — on
a transport failure of an established connection it performs zero
reconnect attempts and a single send, so the claimed
one-reconnect/one-retry behaviour is false for Niri. -/
theorem c6_counterexample :
    ¬ (∀ (connected : Bool) (ci : Except String Unit) (m : String),
        (niri_send_action connected ci (.error m)).reconnects = 1 ∧
          (niri_send_action connected ci (.error m)).sends = 2) := by
  intro h
  have hx := (h true (.ok ()) "io error").1
  simp [niri_send_action, niriSendPhase] at hx

/-- C6 amended: only the Sway adapter implements the
reconnect-once-and-retry-once policy — on a transport failure it performs
exactly one reconnect attempt and one retry, surfacing the error when the
reconnect or the retry fails, and never exceeds two sends or one
reconnect; the Niri adapter performs no reconnect and no retry at all — a
transport failure surfaces immediately after its single send. -/
theorem c6_reconnect_policy :
    (∀ m rc s2, swaySendPhase (.error m) (.error rc) s2 = ⟨.error rc, 1, 1⟩) ∧
    (∀ m s2, swaySendPhase (.error m) (.ok ()) s2 = ⟨s2, 2, 1⟩) ∧
    (∀ rc s2, swaySendPhase (.ok ()) rc s2 = ⟨.ok (), 1, 0⟩) ∧
    (∀ connected ci s1 rc s2,
      (sway_run_command connected ci s1 rc s2).sends ≤ 2 ∧
        (sway_run_command connected ci s1 rc s2).reconnects ≤ 1) ∧
    (∀ m connected ci,
      (niri_send_action connected ci (.error m)).result = .error m ∨
        (niri_send_action connected ci (.error m)).sends = 0) ∧
    (∀ connected ci s1,
      (niri_send_action connected ci s1).sends ≤ 1 ∧
        (niri_send_action connected ci s1).reconnects = 0) := by
  refine ⟨fun m rc s2 => rfl, ?_, fun rc s2 => rfl, ?_, ?_, ?_⟩
  · intro m s2
    cases s2 <;> rfl
  · intro connected ci s1 rc s2
    rcases connected with _ | _ <;> rcases ci with e | u <;>
      rcases s1 with e1 | u1 <;> rcases rc with e2 | u2 <;> rcases s2 with e3 | u3 <;>
      simp [sway_run_command, swaySendPhase]
  · intro m connected ci
    rcases connected with _ | _ <;> rcases ci with e | u <;>
      simp [niri_send_action, niriSendPhase]
  · intro connected ci s1
    rcases connected with _ | _ <;> rcases ci with e | u <;>
      rcases s1 with e1 | r1 <;> try rcases r1 with e2 | u2
    all_goals simp [niri_send_action, niriSendPhase]

/-! ### Acceleration-speed handling
(`Sway::clamp_speed`/`touchpad_acceleration` in `src/compositor/sway.rs`,
`Hyprland::touchpad_acceleration` in `src/compositor/hyprland.rs`) -/

/-- `Sway::clamp_speed`: `speed.max(-1.0).min(1.0)`. -/
def clamp_speed (speed : F64) : F64 := min (max speed (-1)) 1

/-- `AccelProfile → Sway token` (`Sway::map_accel_profile`). -/
def swayMapAccelProfile : AccelProfile → String
  | .flat => "flat"
  | .adaptive => "adaptive"

/-- A command the Sway adapter sends for acceleration settings. -/
inductive SwayCmd
  | pointer_accel (target : String) (v : F64)
  | accel_profile (target : String) (v : String)
deriving DecidableEq

/-- `Sway::touchpad_acceleration`: clamp the speed, send `pointer_accel`,
then optionally `accel_profile`; `None` sends nothing. -/
def sway_touchpad_acceleration (accel : Option AccelConfig) : List SwayCmd :=
  match accel with
  | none => []
  | some a =>
    [SwayCmd.pointer_accel "type:touchpad" (clamp_speed a.speed)] ++
      (match a.profile with
       | some p => [SwayCmd.accel_profile "type:touchpad" (swayMapAccelProfile p)]
       | none => [])

/-- `AccelProfile → Hyprland token` (inline match in
`Hyprland::touchpad_acceleration`). -/
def hyprMapAccelProfile : AccelProfile → String
  | .flat => "flat"
  | .adaptive => "adaptive"

/-- A keyword write the Hyprland adapter performs for acceleration
settings. -/
inductive HyprCmd
  | sensitivity (v : F64)
  | accel_profile (v : String)
deriving DecidableEq

/-- `Hyprland::touchpad_acceleration`: set `input:sensitivity` to the raw
speed (no clamping in the source), then optionally the accel profile. -/
def hyprland_touchpad_acceleration (accel : Option AccelConfig) : List HyprCmd :=
  match accel with
  | none => []
  | some a =>
    [HyprCmd.sensitivity a.speed] ++
      (match a.profile with
       | some p => [HyprCmd.accel_profile (hyprMapAccelProfile p)]
       | none => [])

/-- The speed values a Sway acceleration call transmits. -/
def swayAccelValues (cmds : List SwayCmd) : List F64 :=
  cmds.filterMap fun c =>
    match c with
    | .pointer_accel _ v => some v
    | _ => none

/-- The sensitivity values a Hyprland acceleration call transmits. -/
def hyprSensitivityValues (cmds : List HyprCmd) : List F64 :=
  cmds.filterMap fun c =>
    match c with
    | .sensitivity v => some v
    | _ => none

/-- C8 counterexample: the Hyprland adapter transmits the acceleration
speed unclamped — for speed `-5` it sends `-5`, not the clamped `-1`. -/
theorem c8_counterexample :
    ¬ (∀ a : AccelConfig,
        hyprSensitivityValues (hyprland_touchpad_acceleration (some a)) =
          [clamp_speed a.speed]) := by
  intro h
  have hx := h ⟨none, -5⟩
  simp [hyprland_touchpad_acceleration, hyprSensitivityValues, clamp_speed] at hx

/-- C8 amended: the Sway adapter clamps the acceleration speed to
`[-1, 1]` before transmission (`clamp(-5) = -1`, `clamp(5) = 1`) and
out-of-range input is clamped rather than rejected; the Hyprland adapter
transmits the raw, unclamped speed.  Both emissions are total — no input
produces an error. -/
theorem c8_speed_clamping :
    clamp_speed (-5) = -1 ∧ clamp_speed 5 = 1 ∧
    (∀ s : F64, -1 ≤ clamp_speed s ∧ clamp_speed s ≤ 1) ∧
    (∀ a : AccelConfig,
      swayAccelValues (sway_touchpad_acceleration (some a)) = [clamp_speed a.speed]) ∧
    (∀ a : AccelConfig,
      hyprSensitivityValues (hyprland_touchpad_acceleration (some a)) = [a.speed]) := by
  refine ⟨by norm_num [clamp_speed], by norm_num [clamp_speed],
    fun s => ⟨le_min (le_max_right _ _) (by norm_num), min_le_right _ _⟩, ?_, ?_⟩
  · rintro ⟨p, s⟩
    cases p <;> rfl
  · rintro ⟨p, s⟩
    cases p <;> rfl

/-! ### XKB-options normalization
(`Sway::normalize_kb_options` in `src/compositor/sway.rs`, and the inline
normalization in `Hyprland::keyboard_options`, `src/compositor/hyprland.rs`)

Both normalize with `trim_matches(|c| c == ',' || c.is_whitespace())`, a
split on `','`, a `trim` of each part, dropping empty parts, and a rejoin
with `","`. -/

/-- Rust `char::is_whitespace` (the Unicode `White_Space` property). -/
def rustIsWhitespace (c : Char) : Bool :=
  decide ((9 ≤ c.toNat ∧ c.toNat ≤ 13) ∨ c.toNat = 32 ∨ c.toNat = 133 ∨
    c.toNat = 160 ∨ c.toNat = 5760 ∨ (8192 ≤ c.toNat ∧ c.toNat ≤ 8202) ∨
    c.toNat = 8232 ∨ c.toNat = 8233 ∨ c.toNat = 8239 ∨ c.toNat = 8287 ∨
    c.toNat = 12288)

/-- The predicate of `trim_matches`: `c == ',' || c.is_whitespace()`. -/
def isTrimChar (c : Char) : Bool := (c == ',') || rustIsWhitespace c

/-- Rust `str::trim_matches`-style trimming of both ends by a predicate. -/
def trimBy (p : Char → Bool) (s : RStr) : RStr :=
  ((s.dropWhile p).reverse.dropWhile p).reverse

/-- Rust `str::trim` (trim Unicode whitespace at both ends). -/
def rustTrim (s : RStr) : RStr := trimBy rustIsWhitespace s

/-- Keep only nonempty trimmed segments (`filter_map` + `is_empty`). -/
def keepNonEmpty (t : RStr) : Bool := !t.isEmpty

/-- `Sway::normalize_kb_options`. -/
def normalize_kb_options (options : RStr) : RStr :=
  List.intercalate [',']
    ((((trimBy isTrimChar options).splitOn ',').map rustTrim).filter keepNonEmpty)

/-- The normalization inlined in `Hyprland::keyboard_options`. -/
def hyprlandKeyboardOptionsCleaned (options : RStr) : RStr :=
  List.intercalate [',']
    ((((trimBy isTrimChar options).splitOn ',').map rustTrim).filter keepNonEmpty)

lemma head?_dropWhile_not (p : Char → Bool) (l : RStr) (a : Char)
    (h : (l.dropWhile p).head? = some a) : p a = false := by
  have hne : l.dropWhile p ≠ [] := by
    intro hh
    rw [hh] at h
    simp at h
  have hh := List.head_dropWhile_not p l hne
  rw [List.head?_eq_head hne] at h
  injection h with h
  rw [h] at hh
  exact hh

lemma not_mem_splitOnP (p : Char → Bool) (l : RStr) :
    ∀ t ∈ l.splitOnP p, ∀ c ∈ t, p c = false := by
  induction l with
  | nil =>
    intro t ht c hc
    rw [List.splitOnP_nil] at ht
    obtain rfl := List.mem_singleton.mp ht
    simp at hc
  | cons a l ih =>
    intro t ht c hc
    rw [List.splitOnP_cons] at ht
    by_cases hpa : p a = true
    · rw [if_pos hpa] at ht
      rcases List.mem_cons.mp ht with rfl | ht
      · simp at hc
      · exact ih t ht c hc
    · rw [if_neg hpa] at ht
      obtain ⟨h0, t0, hsp⟩ : ∃ h0 t0, l.splitOnP p = h0 :: t0 := by
        rcases hl : l.splitOnP p with _ | ⟨h0, t0⟩
        · exact absurd hl (List.splitOnP_ne_nil p l)
        · exact ⟨h0, t0, rfl⟩
      rw [hsp, List.modifyHead_cons] at ht
      rcases List.mem_cons.mp ht with rfl | ht
      · rcases List.mem_cons.mp hc with rfl | hc
        · exact Bool.eq_false_iff.mpr hpa
        · exact ih h0 (by rw [hsp]; exact List.mem_cons_self _ _) c hc
      · exact ih t (by rw [hsp]; exact List.mem_cons_of_mem _ ht) c hc

lemma not_mem_splitOn (a : Char) (l : RStr) : ∀ t ∈ l.splitOn a, a ∉ t := by
  intro t ht hmem
  have := not_mem_splitOnP (· == a) l t ht a hmem
  simp at this

lemma mem_trimBy_subset (p : Char → Bool) (t : RStr) :
    ∀ x ∈ trimBy p t, x ∈ t := by
  intro x hx
  unfold trimBy at hx
  rw [List.mem_reverse] at hx
  have hx2 := (List.dropWhile_sublist p).subset hx
  rw [List.mem_reverse] at hx2
  exact (List.dropWhile_sublist p).subset hx2

lemma trimBy_head? (p : Char → Bool) (t : RStr) (a : Char)
    (h : (trimBy p t).head? = some a) : p a = false := by
  unfold trimBy at h
  have hpre : ((t.dropWhile p).reverse.dropWhile p).reverse <+: t.dropWhile p := by
    have hs : (t.dropWhile p).reverse.dropWhile p <:+ (t.dropWhile p).reverse :=
      List.dropWhile_suffix p
    have := List.reverse_prefix.mpr hs
    rwa [List.reverse_reverse] at this
  obtain ⟨r, hr⟩ := hpre
  have : (t.dropWhile p).head? = some a := by
    rw [← hr, List.head?_append, h]
    rfl
  exact head?_dropWhile_not p t a this

lemma trimBy_getLast? (p : Char → Bool) (t : RStr) (a : Char)
    (h : (trimBy p t).getLast? = some a) : p a = false := by
  unfold trimBy at h
  rw [List.getLast?_reverse] at h
  exact head?_dropWhile_not p (t.dropWhile p).reverse a h

lemma trimBy_eq_self (p : Char → Bool) (l : RStr)
    (h1 : ∀ a, l.head? = some a → p a = false)
    (h2 : ∀ a, l.getLast? = some a → p a = false) : trimBy p l = l := by
  cases l with
  | nil => rfl
  | cons x xs =>
    have hx : p x = false := h1 x rfl
    have hd1 : List.dropWhile p (x :: xs) = x :: xs := by
      rw [List.dropWhile_cons, if_neg (by simp [hx])]
    unfold trimBy
    rw [hd1]
    obtain ⟨b, hb⟩ : ∃ b, (x :: xs).getLast? = some b :=
      ⟨(x :: xs).getLast (by simp), List.getLast?_eq_getLast _ (by simp)⟩
    have hrev : (x :: xs).reverse.head? = some b := by
      rw [List.head?_reverse]
      exact hb
    have hpb : p b = false := h2 b hb
    have hd2 : List.dropWhile p ((x :: xs).reverse) = (x :: xs).reverse := by
      rcases hr : (x :: xs).reverse with _ | ⟨y, ys⟩
      · rfl
      · rw [hr] at hrev
        injection hrev with hy
        subst hy
        rw [List.dropWhile_cons, if_neg (by simp [hpb])]
    rw [hd2, List.reverse_reverse]

lemma intercalate_head?_of_ne (sep : RStr) (h : RStr) (t : List RStr) (hne : h ≠ []) :
    (List.intercalate sep (h :: t)).head? = h.head? := by
  cases t with
  | nil => simp [List.intercalate]
  | cons h2 t2 =>
    have hrec : List.intercalate sep (h :: h2 :: t2) =
        h ++ (sep ++ List.intercalate sep (h2 :: t2)) := by
      simp [List.intercalate, List.intersperse_cons_cons]
    rw [hrec, List.head?_append]
    rcases h with _ | ⟨y, ys⟩
    · exact absurd rfl hne
    · rfl

lemma intercalate_getLast?_of_ne (sep : RStr) (ps : List RStr) (hps : ps ≠ [])
    (hlast : ps.getLast hps ≠ []) :
    (List.intercalate sep ps).getLast? = (ps.getLast hps).getLast? := by
  induction ps with
  | nil => exact absurd rfl hps
  | cons h t ih =>
    cases t with
    | nil => simp [List.intercalate]
    | cons h2 t2 =>
      have hrec : List.intercalate sep (h :: h2 :: t2) =
          h ++ (sep ++ List.intercalate sep (h2 :: t2)) := by
        simp [List.intercalate, List.intersperse_cons_cons]
      have hlast2 : (h :: h2 :: t2).getLast hps = (h2 :: t2).getLast (by simp) :=
        List.getLast_cons _
      rw [hlast2] at hlast
      have hx := ih (by simp) hlast
      obtain ⟨b, hb⟩ : ∃ b, ((h2 :: t2).getLast (by simp)).getLast? = some b :=
        ⟨_, List.getLast?_eq_getLast _ hlast⟩
      rw [hrec, List.getLast?_append, List.getLast?_append, hx, hb, hlast2, hb]
      rfl

/-- The segment list both adapters build before rejoining. -/
def normalizeParts (s : RStr) : List RStr :=
  (((trimBy isTrimChar s).splitOn ',').map rustTrim).filter keepNonEmpty

lemma normalize_eq_parts (s : RStr) :
    normalize_kb_options s = List.intercalate [','] (normalizeParts s) := rfl

lemma normalizeParts_spec (s : RStr) :
    ∀ t ∈ normalizeParts s,
      t ≠ [] ∧ ',' ∉ t ∧
        (∀ a, t.head? = some a → isTrimChar a = false) ∧
        (∀ a, t.getLast? = some a → isTrimChar a = false) := by
  intro t ht
  obtain ⟨hmem, hq⟩ := List.mem_filter.mp ht
  obtain ⟨t0, ht0, rfl⟩ := List.mem_map.mp hmem
  have hne : rustTrim t0 ≠ [] := by
    intro hh
    rw [keepNonEmpty, hh] at hq
    simp at hq
  have hsub := mem_trimBy_subset rustIsWhitespace t0
  have hnc : ',' ∉ t0 := not_mem_splitOn ',' _ t0 ht0
  have hedge : ∀ a, a ∈ rustTrim t0 → rustIsWhitespace a = false →
      isTrimChar a = false := by
    intro a hamem hws
    have hac : a ≠ ',' := fun h => hnc (h ▸ hsub a hamem)
    simp [isTrimChar, hws, hac]
  refine ⟨hne, fun hc => hnc (hsub _ hc), ?_, ?_⟩
  · intro a ha
    exact hedge a (List.mem_of_mem_head? (by rw [ha]; rfl))
      (trimBy_head? _ _ _ ha)
  · intro a ha
    obtain ⟨ys, hys⟩ := List.getLast?_eq_some_iff.mp ha
    exact hedge a (by rw [hys]; simp) (trimBy_getLast? _ _ _ ha)

lemma normalize_kb_options_idem (s : RStr) :
    normalize_kb_options (normalize_kb_options s) = normalize_kb_options s := by
  rcases hps : normalizeParts s with _ | ⟨h, t⟩
  · rw [normalize_eq_parts s, hps]
    rfl
  · have hspec : ∀ u ∈ (h :: t),
        u ≠ [] ∧ ',' ∉ u ∧
          (∀ a, u.head? = some a → isTrimChar a = false) ∧
          (∀ a, u.getLast? = some a → isTrimChar a = false) := by
      rw [← hps]
      exact normalizeParts_spec s
    have hh := hspec h (List.mem_cons_self _ _)
    have hlastmem := List.getLast_mem (l := h :: t) (by simp)
    have hlast := hspec _ hlastmem
    have hA : trimBy isTrimChar (List.intercalate [','] (h :: t)) =
        List.intercalate [','] (h :: t) := by
      refine trimBy_eq_self _ _ ?_ ?_
      · intro a ha
        rw [intercalate_head?_of_ne [','] h t hh.1] at ha
        exact hh.2.2.1 a ha
      · intro a ha
        rw [intercalate_getLast?_of_ne [','] (h :: t) (by simp) hlast.1] at ha
        exact hlast.2.2.2 a ha
    have hB : (List.intercalate [','] (h :: t)).splitOn ',' = h :: t :=
      List.splitOn_intercalate (h :: t) ',' (fun u hu => (hspec u hu).2.1) (by simp)
    have hC : (h :: t).map rustTrim = h :: t := by
      conv_rhs => rw [← List.map_id (h :: t)]
      refine List.map_congr_left ?_
      intro u hu
      obtain ⟨hu1, -, hu3, hu4⟩ := hspec u hu
      refine trimBy_eq_self _ _ ?_ ?_
      · intro a ha
        have := hu3 a ha
        simp [isTrimChar] at this
        simp [this.2]
      · intro a ha
        have := hu4 a ha
        simp [isTrimChar] at this
        simp [this.2]
    have hD : (h :: t).filter keepNonEmpty = h :: t := by
      refine List.filter_eq_self.mpr ?_
      intro u hu
      have := (hspec u hu).1
      simp [keepNonEmpty, this]
    calc normalize_kb_options (normalize_kb_options s)
        = List.intercalate [','] (normalizeParts (List.intercalate [','] (h :: t))) := by
          rw [normalize_eq_parts s, hps, normalize_eq_parts]
      _ = List.intercalate [','] (h :: t) := by
          rw [normalizeParts, hA, hB, hC, hD]
      _ = normalize_kb_options s := by
          rw [normalize_eq_parts s, hps]

/-- C7: the Hyprland inline normalization and Sway's
`normalize_kb_options` are the same pure function on strings; the
normalization is idempotent; and `" ,us, ,de,"` normalizes to `"us,de"`. -/
theorem c7_normalization :
    (∀ s : RStr, hyprlandKeyboardOptionsCleaned s = normalize_kb_options s) ∧
    (∀ s : RStr, normalize_kb_options (normalize_kb_options s) = normalize_kb_options s) ∧
    normalize_kb_options [' ', ',', 'u', 's', ',', ' ', ',', 'd', 'e', ','] =
      ['u', 's', ',', 'd', 'e'] :=
  ⟨fun _ => rfl, normalize_kb_options_idem, by decide⟩

end Cosmolith
